import Mathlib

/-!
# Verification of the bytecode interpreter (src/solutions/interpreter.py)

A shallow embedding of the interpreter: the JVM value model, the opcode
variant, frames, machine state, the `step` dispatch function, the built-in
string-method emulation, and the bounded driver loop.  Python machine
integers are arbitrary-precision, so they are embedded as `Int`; Python
list indexing and slicing (as used by `Bytecode.__getitem__`, `charAt`
and `substring`) are embedded with their real semantics, negative-index
wraparound and clamping included.
-/

namespace Interp

/-- Method identifiers (`jvm.AbsMethodID`) are opaque keys; embedded as strings. -/
abbrev MethodID := String

/-- Declared JVM types carried by values and by `Load`/`Store`/`Binary` opcodes
(`jvm.Int`, `jvm.Boolean`, `jvm.Char`, `jvm.Reference`, `jvm.Object`). -/
inductive JType where
  | int
  | boolean
  | char
  | reference
  | object (classname : String)
deriving DecidableEq, Repr

/-- The payload slot of `jvm.Value`: a Python value that is an int, a bool,
a one-character string (char), `None` (null reference), or a string (used by
the interpreter both for text contents and for the reference markers
`"AssertionError"` / `"Object:<name>"`). -/
inductive Payload where
  | intP (n : Int)
  | boolP (b : Bool)
  | charP (c : Char)
  | nullP
  | strP (s : String)
deriving DecidableEq, Repr

/-- `jvm.Value`: a declared type together with its payload. -/
structure Value where
  type : JType
  payload : Payload
deriving DecidableEq, Repr

/-- `jvm.Value.int(n)` -/
def Value.int (n : Int) : Value := ⟨.int, .intP n⟩

/-- `jvm.Value.boolean(b)` -/
def Value.boolean (b : Bool) : Value := ⟨.boolean, .boolP b⟩

/-- `jvm.Value.char(c)` -/
def Value.char (c : Char) : Value := ⟨.char, .charP c⟩

/-- The five binary operators the interpreter implements; any other
`jvm.BinaryOpr` falls into the source's `NotImplementedError` branch. -/
inductive BinaryOpr where
  | add
  | sub
  | mul
  | div
  | rem
deriving DecidableEq, Repr

/-- The six comparison conditions of `Ifz` / `If` ("eq", "ne", "lt", "le",
"gt", "ge"). -/
inductive CmpCond where
  | eq
  | ne
  | lt
  | le
  | gt
  | ge
deriving DecidableEq, Repr

/-- The parts of an invoked method reference the interpreter consults:
`str(m.classname)`, `m.methodid.name`, and `len(m.methodid.params)`.
(The return type is passed to `handle_string_method` in the source but
never used there, so it is not carried.) -/
structure MethodRef where
  classname : String
  name : String
  params : Nat
deriving DecidableEq, Repr

/-- The decoded opcode variant (`jvm.Opcode`) — exactly the constructors the
`match` in `step` distinguishes.  Branch targets are Python ints. -/
inductive Opcode where
  | push (v : Value)
  | load (t : JType) (i : Nat)
  | store (t : JType) (i : Nat)
  | binary (t : JType) (op : BinaryOpr)
  | ifz (c : CmpCond) (target : Int)
  | ifCmp (c : CmpCond) (target : Int)
  | goto (target : Int)
  | newObj (classname : String)
  | dup (words : Nat)
  | getF (static : Bool) (fieldName : String)
  | throwOp
  | invokeVirtual (m : MethodRef)
  | invokeStatic (m : MethodRef)
  | invokeSpecial (m : MethodRef)
  | ret (t : Option JType)
deriving DecidableEq, Repr

/-- `PC`: a method identifier and an integer offset. -/
structure PC where
  method : MethodID
  offset : Int
deriving DecidableEq, Repr

/-- `PC.__add__` / `__iadd__`: advance the offset within the same method. -/
def PC.add (pc : PC) (delta : Int) : PC := ⟨pc.method, pc.offset + delta⟩

/-- `Frame`: local slots (a Python dict, embedded as an association list where
assignment prepends and so shadows), the operand stack (top of stack at the
head of the list; the Python list keeps the top at its end), and the program
counter. -/
structure Frame where
  locals : List (Nat × Value)
  stack : List Value
  pc : PC
deriving DecidableEq, Repr

/-- `State`: the heap dict and the call stack of frames (top frame at the
head of the list). -/
structure State where
  heap : List (Nat × Value)
  frames : List Frame
deriving DecidableEq, Repr

/-- Result of one `step` call: an updated state, a terminal outcome string
returned by the Python function, or a raised Python exception
(`NotImplementedError`, `RuntimeError`, `IndexError`, failed `assert`). -/
inductive StepResult where
  | next (s : State)
  | outcome (o : String)
  | error (msg : String)
deriving DecidableEq, Repr

/-- The decoded-instruction store: what `Bytecode.__getitem__` computes given
the suite.  The per-method memoization cache of the source is not observable,
so a program is embedded as the map from method id to its opcode list. -/
abbrev Prog := MethodID → List Opcode

/-- Python list indexing `l[i]`: indices in `[0, len)` index from the front,
indices in `[-len, -1]` index from the back, anything else raises
`IndexError` (embedded as `none`). -/
def pyIndex {α : Type} (l : List α) (i : Int) : Option α :=
  let j : Int := if i < 0 then i + l.length else i
  if 0 ≤ j ∧ j < l.length then l.get? j.toNat else none

/-- `Bytecode.__getitem__(pc)`: `opcodes[pc.offset]` on the method's decoded
opcode list. -/
def fetchOpcode (prog : Prog) (pc : PC) : Option Opcode :=
  pyIndex (prog pc.method) pc.offset

/-- Python slice-bound adjustment: a negative bound counts from the end, then
the bound is clamped into `[0, len]`. -/
def pyAdj (len : Nat) (i : Int) : Nat :=
  let j : Int := if i < 0 then i + len else i
  if j ≤ 0 then 0 else if (len : Int) ≤ j then len else j.toNat

/-- Python string slicing `s[b:e]`. -/
def pySlice (s : String) (b e : Int) : String :=
  let l := s.toList
  ((l.take (pyAdj l.length e)).drop (pyAdj l.length b)).asString

/-- `List.isPrefixOf` as a plain boolean on any list with decidable equality. -/
def startsWithL {α : Type} [DecidableEq α] : List α → List α → Bool
  | [], _ => true
  | _ :: _, [] => false
  | a :: as, b :: bs => a = b && startsWithL as bs

/-- Python `pat in s` on strings: `pat` occurs as a contiguous substring. -/
def containsSubL {α : Type} [DecidableEq α] (pat : List α) : List α → Bool
  | [] => startsWithL pat []
  | c :: rest => startsWithL pat (c :: rest) || containsSubL pat rest

/-- Python `pat in s` for strings. -/
def strContainsSub (s pat : String) : Bool :=
  containsSubL pat.toList s.toList

/-- Python `s.endswith(pat)`. -/
def strEndsWith (s pat : String) : Bool :=
  startsWithL pat.toList.reverse s.toList.reverse

/-- Python `s.index(pat)`: offset of the first occurrence of the substring
`pat` in `s`, or `none` (the source's `ValueError` branch). -/
def indexOfSub {α : Type} [DecidableEq α] (pat : List α) : List α → Option Nat
  | [] => if startsWithL pat [] then some 0 else none
  | c :: rest =>
    if startsWithL pat (c :: rest) then some 0
    else (indexOfSub pat rest).map (· + 1)

/-- Python `str(payload)` as applied by `handle_string_method` to a non-null,
non-string payload, and to method arguments in `equals`/`indexOf`/`concat`. -/
def pyStr : Payload → String
  | .strP s => s
  | .intP n => toString n
  | .boolP b => if b then "True" else "False"
  | .charP c => String.singleton c
  | .nullP => "None"

/-- Result of `handle_method_invocation` / `handle_string_method`: a value to
push, a fault outcome string, or Python `None` (which the call sites read
either as "constructor handled, nothing to push" or as "not handled"). -/
inductive InvRes where
  | val (v : Value)
  | fault (o : String)
  | noRes
deriving DecidableEq, Repr

/-- `handle_string_method`: the built-in text-method emulation.  A guard that
fails (wrong argument count or wrong argument type) falls off the end of the
Python function and yields `None` (`noRes`).  A non-int payload under an
`Int`-typed argument is embedded as `noRes` as well; the source would raise a
`TypeError` there, and both surface as a raised exception at the dispatch
site. -/
def handle_string_method (method_name : String) (obj_ref : Option Value)
    (args : List Value) : InvRes :=
  match obj_ref with
  | none => .fault "null pointer"
  | some r =>
    if r.payload = .nullP then .fault "null pointer"
    else
      let s := pyStr r.payload
      match method_name with
      | "length" =>
        match args with
        | [] => .val (Value.int s.length)
        | _ => .noRes
      | "charAt" =>
        match args with
        | [a] =>
          if a.type = .int then
            match a.payload with
            | .intP index =>
              if index < 0 ∨ (s.length : Int) ≤ index then .fault "out of bounds"
              else
                match pyIndex s.toList index with
                | some c => .val (Value.char c)
                | none => .noRes
            | _ => .noRes
          else .noRes
        | _ => .noRes
      | "equals" =>
        match args with
        | [a] =>
          if a.payload = .nullP then .val (Value.boolean false)
          else .val (Value.boolean (s == pyStr a.payload))
        | _ => .noRes
      | "isEmpty" =>
        match args with
        | [] => .val (Value.boolean (s.length == 0))
        | _ => .noRes
      | "substring" =>
        match args with
        | [a] =>
          if a.type = .int then
            match a.payload with
            | .intP b =>
              if b < 0 ∨ (s.length : Int) < b then .fault "out of bounds"
              else .val ⟨.reference, .strP (pySlice s b s.length)⟩
            | _ => .noRes
          else .noRes
        | [a, a2] =>
          if a.type = .int ∧ a2.type = .int then
            match a.payload, a2.payload with
            | .intP b, .intP e =>
              if b < 0 ∨ (s.length : Int) < e ∨ e < b then .fault "out of bounds"
              else .val ⟨.reference, .strP (pySlice s b e)⟩
            | _, _ => .noRes
          else .noRes
        | _ => .noRes
      | "indexOf" =>
        match args with
        | [a] =>
          if a.payload = .nullP then .fault "null pointer"
          else
            match indexOfSub (pyStr a.payload).toList s.toList with
            | some i => .val (Value.int i)
            | none => .val (Value.int (-1))
        | _ => .noRes
      | "concat" =>
        match args with
        | [a] =>
          if a.payload = .nullP then .fault "null pointer"
          else .val ⟨.reference, .strP (s ++ pyStr a.payload)⟩
        | _ => .noRes
      | _ => .noRes

/-- `handle_method_invocation`: AssertionError construction is a handled
no-op (`None`), calls whose class name mentions `String` go to the string
emulation, everything else is `None` (not handled). -/
def handle_method_invocation (m : MethodRef) (obj_ref : Option Value)
    (args : List Value) : InvRes :=
  if strContainsSub m.classname "AssertionError" && m.name == "<init>" then
    .noRes
  else if strContainsSub m.classname "String" || strEndsWith m.classname "String" then
    handle_string_method m.name obj_ref args
  else .noRes

/-- The comparison view of a value (`get_comparable_value` and the inline
coercion in `Ifz`): Boolean becomes 0/1, Char becomes its code point, an int
payload is itself, and a null or string payload stays raw. -/
inductive Co where
  | num (n : Int)
  | raw (p : Payload)
deriving DecidableEq, Repr

def coerceCmp (v : Value) : Co :=
  match v.type, v.payload with
  | .boolean, .boolP b => .num (if b then 1 else 0)
  | .char, .charP c => .num c.toNat
  | _, .intP n => .num n
  | _, p => .raw p

def evalCond (c : CmpCond) (a b : Int) : Bool :=
  match c with
  | .eq => a == b
  | .ne => a != b
  | .lt => decide (a < b)
  | .le => decide (a ≤ b)
  | .gt => decide (b < a)
  | .ge => decide (b ≤ a)

/-- Python `==` on the two comparison views: numbers compare numerically,
raw payloads structurally, and a number never equals a raw payload. -/
def coEq : Co → Co → Bool
  | .num a, .num b => a == b
  | .raw p, .raw q => p == q
  | _, _ => false

/-- The `Ifz` decision `int_val <cond> 0`.  When the popped value kept a raw
payload, Python equality against 0 is `False` and ordering raises
`TypeError`. -/
def cmpZero (c : CmpCond) (v : Co) : Except String Bool :=
  match v with
  | .num n => .ok (evalCond c n 0)
  | .raw _ =>
    match c with
    | .eq => .ok false
    | .ne => .ok true
    | _ => .error "TypeError: unsupported comparison with zero"

/-- The `If` decision `v1 <cond> v2`.  Two string payloads order
lexicographically (Python string comparison); ordering any other raw payload
raises `TypeError`. -/
def cmpTwo (c : CmpCond) (v1 v2 : Co) : Except String Bool :=
  match v1, v2 with
  | .num a, .num b => .ok (evalCond c a b)
  | a, b =>
    match c with
    | .eq => .ok (coEq a b)
    | .ne => .ok (!(coEq a b))
    | _ =>
      match a, b with
      | .raw (.strP s1), .raw (.strP s2) =>
        match c with
        | .lt => .ok (decide (s1 < s2))
        | .le => .ok (decide (s1 ≤ s2))
        | .gt => .ok (decide (s2 < s1))
        | .ge => .ok (decide (s2 ≤ s1))
        | _ => .error "TypeError: unsupported comparison"
      | _, _ => .error "TypeError: unsupported comparison"

/-- Pop `n` values off the operand stack, restoring argument order (the
source pops one at a time and inserts at the front of `args`); `none` when
the stack underflows (Python `IndexError`). -/
def popN (n : Nat) (stk : List Value) : Option (List Value × List Value) :=
  if n ≤ stk.length then some ((stk.take n).reverse, stk.drop n) else none

/-- `step`: one transition of the dispatch engine.  Mirrors the `match` in
the source case by case; the trailing catch-all covers `Binary` at a non-Int
type, the only handled-constructor shape the dispatch does not implement.
In `Throw`, both the AssertionError branch and the default branch of the
source return `"assertion error"`, so any non-null thrown payload yields that
outcome. -/
def step (prog : Prog) (s : State) : StepResult :=
  match s.frames with
  | [] => .error "IndexError: peek on empty call stack"
  | frame :: rest =>
    match fetchOpcode prog frame.pc with
    | none => .error "IndexError: unknown program counter"
    | some opr =>
      match opr with
      | .push v =>
        .next ⟨s.heap, { frame with stack := v :: frame.stack, pc := frame.pc.add 1 } :: rest⟩
      | .load t i =>
        match frame.locals.lookup i with
        | some v =>
          .next ⟨s.heap, { frame with stack := v :: frame.stack, pc := frame.pc.add 1 } :: rest⟩
        | none =>
          match t with
          | .int =>
            .next ⟨s.heap, { frame with stack := Value.int 0 :: frame.stack, pc := frame.pc.add 1 } :: rest⟩
          | .boolean =>
            .next ⟨s.heap, { frame with stack := Value.boolean false :: frame.stack, pc := frame.pc.add 1 } :: rest⟩
          | .reference =>
            .next ⟨s.heap, { frame with stack := ⟨.reference, .nullP⟩ :: frame.stack, pc := frame.pc.add 1 } :: rest⟩
          | .object cn =>
            .next ⟨s.heap, { frame with stack := ⟨.object cn, .nullP⟩ :: frame.stack, pc := frame.pc.add 1 } :: rest⟩
          | .char => .error "NotImplementedError: Load for type not implemented"
      | .store _ i =>
        match frame.stack with
        | [] => .error "IndexError: pop from empty stack"
        | v :: stk =>
          .next ⟨s.heap, { frame with locals := (i, v) :: frame.locals, stack := stk, pc := frame.pc.add 1 } :: rest⟩
      | .binary .int op =>
        match frame.stack with
        | v2 :: v1 :: stk =>
          match v1, v2 with
          | ⟨.int, .intP a⟩, ⟨.int, .intP b⟩ =>
            match op with
            | .div =>
              if b = 0 then .outcome "divide by zero"
              else .next ⟨s.heap, { frame with stack := Value.int (Int.fdiv a b) :: stk, pc := frame.pc.add 1 } :: rest⟩
            | .add =>
              .next ⟨s.heap, { frame with stack := Value.int (a + b) :: stk, pc := frame.pc.add 1 } :: rest⟩
            | .sub =>
              .next ⟨s.heap, { frame with stack := Value.int (a - b) :: stk, pc := frame.pc.add 1 } :: rest⟩
            | .mul =>
              .next ⟨s.heap, { frame with stack := Value.int (a * b) :: stk, pc := frame.pc.add 1 } :: rest⟩
            | .rem =>
              if b = 0 then .outcome "divide by zero"
              else .next ⟨s.heap, { frame with stack := Value.int (Int.fmod a b) :: stk, pc := frame.pc.add 1 } :: rest⟩
          | _, _ => .error "AssertionError: expected int"
        | _ => .error "IndexError: pop from empty stack"
      | .ifz c target =>
        match frame.stack with
        | [] => .error "IndexError: pop from empty stack"
        | v :: stk =>
          match cmpZero c (coerceCmp v) with
          | .error e => .error e
          | .ok true =>
            .next ⟨s.heap, { frame with stack := stk, pc := ⟨frame.pc.method, target⟩ } :: rest⟩
          | .ok false =>
            .next ⟨s.heap, { frame with stack := stk, pc := frame.pc.add 1 } :: rest⟩
      | .ifCmp c target =>
        match frame.stack with
        | v2 :: v1 :: stk =>
          match cmpTwo c (coerceCmp v1) (coerceCmp v2) with
          | .error e => .error e
          | .ok true =>
            .next ⟨s.heap, { frame with stack := stk, pc := ⟨frame.pc.method, target⟩ } :: rest⟩
          | .ok false =>
            .next ⟨s.heap, { frame with stack := stk, pc := frame.pc.add 1 } :: rest⟩
        | _ => .error "IndexError: pop from empty stack"
      | .goto target =>
        .next ⟨s.heap, { frame with pc := ⟨frame.pc.method, target⟩ } :: rest⟩
      | .newObj cn =>
        if strContainsSub cn "AssertionError" then
          .next ⟨s.heap, { frame with stack := ⟨.reference, .strP "AssertionError"⟩ :: frame.stack, pc := frame.pc.add 1 } :: rest⟩
        else
          .next ⟨s.heap, { frame with stack := ⟨.reference, .strP ("Object:" ++ cn)⟩ :: frame.stack, pc := frame.pc.add 1 } :: rest⟩
      | .dup w =>
        if w = 1 then
          match frame.stack with
          | [] => .error "RuntimeError: cannot dup, stack is empty"
          | top :: stk =>
            .next ⟨s.heap, { frame with stack := top :: top :: stk, pc := frame.pc.add 1 } :: rest⟩
        else .error "NotImplementedError: dup with words"
      | .getF true fieldName =>
        if fieldName = "$assertionsDisabled" then
          .next ⟨s.heap, { frame with stack := Value.boolean false :: frame.stack, pc := frame.pc.add 1 } :: rest⟩
        else .error "NotImplementedError: static field"
      | .getF false _ =>
        match frame.stack with
        | [] => .error "IndexError: pop from empty stack"
        | objRef :: _ =>
          if objRef.payload = .nullP then .outcome "null pointer"
          else .error "NotImplementedError: instance field"
      | .throwOp =>
        match frame.stack with
        | [] => .error "IndexError: pop from empty stack"
        | exc :: _ =>
          if exc.payload = .nullP then .outcome "null pointer"
          else .outcome "assertion error"
      | .invokeVirtual m =>
        match popN m.params frame.stack with
        | none => .error "IndexError: pop from empty stack"
        | some (args, stk1) =>
          match stk1 with
          | [] => .error "IndexError: pop from empty stack"
          | objRef :: stk2 =>
            if objRef.payload = .nullP then .outcome "null pointer"
            else
              match handle_method_invocation m (some objRef) args with
              | .fault o => .outcome o
              | .val v =>
                .next ⟨s.heap, { frame with stack := v :: stk2, pc := frame.pc.add 1 } :: rest⟩
              | .noRes => .error "NotImplementedError: method invocation"
      | .invokeStatic m =>
        match popN m.params frame.stack with
        | none => .error "IndexError: pop from empty stack"
        | some (args, stk1) =>
          match handle_method_invocation m none args with
          | .fault o => .outcome o
          | .val v =>
            .next ⟨s.heap, { frame with stack := v :: stk1, pc := frame.pc.add 1 } :: rest⟩
          | .noRes => .error "NotImplementedError: static method invocation"
      | .invokeSpecial m =>
        match popN m.params frame.stack with
        | none => .error "IndexError: pop from empty stack"
        | some (args, stk1) =>
          match stk1 with
          | [] => .error "IndexError: pop from empty stack"
          | objRef :: stk2 =>
            if objRef.payload = .nullP then .outcome "null pointer"
            else if m.name = "<init>" then
              match handle_method_invocation m (some objRef) args with
              | .fault o => .outcome o
              | _ =>
                .next ⟨s.heap, { frame with stack := objRef :: stk2, pc := frame.pc.add 1 } :: rest⟩
            else
              match handle_method_invocation m (some objRef) args with
              | .fault o => .outcome o
              | .val v =>
                .next ⟨s.heap, { frame with stack := v :: stk2, pc := frame.pc.add 1 } :: rest⟩
              | .noRes => .error "NotImplementedError: special method invocation"
      | .ret none =>
        match rest with
        | [] => .outcome "ok"
        | g :: gs => .next ⟨s.heap, { g with pc := g.pc.add 1 } :: gs⟩
      | .ret (some _) =>
        match frame.stack with
        | [] => .error "IndexError: pop from empty stack"
        | v :: _ =>
          match rest with
          | [] => .outcome "ok"
          | g :: gs =>
            .next ⟨s.heap, { g with stack := v :: g.stack, pc := g.pc.add 1 } :: gs⟩
      | .binary _ _ => .error "NotImplementedError: unhandled opcode"

/-- `Frame.from_method` plus the driver's argument loop: locals `0..k-1`
hold the harness-supplied argument values, the operand stack is empty, the
PC is offset 0 of the entry method, and the heap starts empty. -/
def initState (m : MethodID) (args : List Value) : State :=
  ⟨[], [⟨args.enum, [], ⟨m, 0⟩⟩]⟩

/-- What the driver prints, or the exception that escaped it. -/
inductive RunOut where
  | printed (line : String)
  | crashed (msg : String)
deriving DecidableEq, Repr

/-- The driver loop: at most `fuel` calls to `step`; prints the outcome when
one is produced, prints `"*"` when the bound is exhausted, and crashes when
`step` raises.  The second component counts the `step` calls performed. -/
def runCount (prog : Prog) : Nat → State → RunOut × Nat
  | 0, _ => (.printed "*", 0)
  | fuel + 1, s =>
    match step prog s with
    | .next s2 =>
      let r := runCount prog fuel s2
      (r.1, r.2 + 1)
    | .outcome o => (.printed o, 1)
    | .error e => (.crashed e, 1)

/-- The driver output with the source's step bound of 1000. -/
def driverRun (prog : Prog) (s : State) : RunOut :=
  (runCount prog 1000 s).1

/-- One transition of the dispatch engine, as a relation on states. -/
def StepRel (prog : Prog) (s s2 : State) : Prop :=
  step prog s = .next s2

/-- States reachable by zero or more `step` transitions. -/
def Reachable (prog : Prog) (s s2 : State) : Prop :=
  Relation.ReflTransGen (StepRel prog) s s2

/-- The default pushed by `Load` for an unset local slot. -/
def loadDefault : JType → Value
  | .boolean => Value.boolean false
  | .int => Value.int 0
  | _ => ⟨.reference, .nullP⟩

/-- C1: the claim asserts truncation toward zero, but `Binary Int Div` uses
Python floor division (`//`): on left operand -7 and right operand 2 the
interpreter pushes -4, while the quotient truncated toward zero is
`Int.tdiv (-7) 2 = -3`. -/
theorem c1_div_is_floor_not_truncation :
    step (fun _ => [.binary .int .div])
        ⟨[], [⟨[], [Value.int 2, Value.int (-7)], ⟨"m", 0⟩⟩]⟩ =
      .next ⟨[], [⟨[], [Value.int (-4)], ⟨"m", 1⟩⟩]⟩ ∧
    Int.tdiv (-7) 2 = -3 ∧ (-4 : Int) ≠ -3 := by
  refine ⟨by decide, by decide, by decide⟩

/-- C2: `Binary Int Div`/`Rem` with right operand 0 yields the terminal
outcome "divide by zero"; no value is pushed and no successor state is
produced. -/
theorem c2_div_rem_by_zero (prog : Prog) (s : State) (frame : Frame)
    (rest : List Frame) (op : BinaryOpr) (a : Int) (stk : List Value)
    (hf : s.frames = frame :: rest)
    (hop : fetchOpcode prog frame.pc = some (.binary .int op))
    (hdr : op = .div ∨ op = .rem)
    (hstk : frame.stack = Value.int 0 :: Value.int a :: stk) :
    step prog s = .outcome "divide by zero" := by
  rcases hdr with h | h <;> subst h <;>
    simp [step, hf, hop, hstk, Value.int]

theorem c2_div_rem_by_zero_witness :
    fetchOpcode (fun _ => [.binary .int .div]) ⟨"m", 0⟩ = some (.binary .int .div) ∧
    step (fun _ => [.binary .int .div])
        ⟨[], [⟨[], [Value.int 0, Value.int 7], ⟨"m", 0⟩⟩]⟩ =
      .outcome "divide by zero" := by
  refine ⟨by decide, ?_⟩
  exact c2_div_rem_by_zero (fun _ => [.binary .int .div])
    ⟨[], [⟨[], [Value.int 0, Value.int 7], ⟨"m", 0⟩⟩]⟩
    ⟨[], [Value.int 0, Value.int 7], ⟨"m", 0⟩⟩ [] .div 7 []
    rfl (by decide) (Or.inl rfl) rfl

/-- C6: the claim asserts every out-of-range offset, negative offsets
included, makes the code-store lookup fail; but `opcodes[pc.offset]` uses
Python list indexing, so on a two-instruction method offset -1 silently
returns the *last* instruction.  (An offset past the end, or below -length,
does raise `IndexError`.) -/
theorem c6_negative_offset_silently_returns :
    fetchOpcode (fun _ => [.goto 7, .ret none]) ⟨"m", -1⟩ = some (.ret none) ∧
    fetchOpcode (fun _ => [.goto 7, .ret none]) ⟨"m", 2⟩ = none ∧
    fetchOpcode (fun _ => [.goto 7, .ret none]) ⟨"m", -3⟩ = none := by
  refine ⟨by decide, by decide, by decide⟩

/-- C4: `Throw` pops the exception value; a null payload yields outcome
"null pointer", and every non-null payload — the assertion-error marker and
any other reference alike — yields outcome "assertion error". -/
theorem c4_throw_outcome (prog : Prog) (s : State) (frame : Frame)
    (rest : List Frame) (v : Value) (stk : List Value)
    (hf : s.frames = frame :: rest)
    (hop : fetchOpcode prog frame.pc = some .throwOp)
    (hstk : frame.stack = v :: stk) :
    step prog s =
      .outcome (if v.payload = .nullP then "null pointer" else "assertion error") := by
  by_cases hn : v.payload = .nullP <;>
    simp [step, hf, hop, hstk, hn]

theorem c4_throw_outcome_witness :
    step (fun _ => [.throwOp])
        ⟨[], [⟨[], [⟨.reference, .nullP⟩], ⟨"m", 0⟩⟩]⟩ = .outcome "null pointer" ∧
    step (fun _ => [.throwOp])
        ⟨[], [⟨[], [⟨.reference, .strP "AssertionError"⟩], ⟨"m", 0⟩⟩]⟩ =
      .outcome "assertion error" ∧
    step (fun _ => [.throwOp])
        ⟨[], [⟨[], [⟨.reference, .strP "Object:Foo"⟩], ⟨"m", 0⟩⟩]⟩ =
      .outcome "assertion error" := by
  refine ⟨?_, ?_, ?_⟩
  · exact c4_throw_outcome (fun _ => [.throwOp]) _
      ⟨[], [⟨.reference, .nullP⟩], ⟨"m", 0⟩⟩ [] ⟨.reference, .nullP⟩ []
      rfl (by decide) rfl
  · exact c4_throw_outcome (fun _ => [.throwOp]) _
      ⟨[], [⟨.reference, .strP "AssertionError"⟩], ⟨"m", 0⟩⟩ []
      ⟨.reference, .strP "AssertionError"⟩ [] rfl (by decide) rfl
  · exact c4_throw_outcome (fun _ => [.throwOp]) _
      ⟨[], [⟨.reference, .strP "Object:Foo"⟩], ⟨"m", 0⟩⟩ []
      ⟨.reference, .strP "Object:Foo"⟩ [] rfl (by decide) rfl

/-- C5: `Load` on a slot that was never written, at declared type Integer,
Boolean or Reference, pushes 0, false or null respectively, advances the PC
by 1 and produces a successor state (never an internal error). -/
theorem c5_load_unset_default (prog : Prog) (s : State) (frame : Frame)
    (rest : List Frame) (t : JType) (i : Nat)
    (hf : s.frames = frame :: rest)
    (hop : fetchOpcode prog frame.pc = some (.load t i))
    (hunset : frame.locals.lookup i = none)
    (ht : t = .int ∨ t = .boolean ∨ t = .reference) :
    step prog s =
      .next ⟨s.heap,
        { frame with stack := loadDefault t :: frame.stack, pc := frame.pc.add 1 } :: rest⟩ := by
  rcases ht with h | h | h <;> subst h <;>
    simp [step, hf, hop, hunset, loadDefault]

theorem c5_load_unset_default_witness :
    (⟨[], [⟨[], [], ⟨"m", 0⟩⟩]⟩ : State).frames = [⟨[], [], ⟨"m", 0⟩⟩] ∧
    step (fun _ => [.load .int 0]) ⟨[], [⟨[], [], ⟨"m", 0⟩⟩]⟩ =
      .next ⟨[], [⟨[], [Value.int 0], ⟨"m", 1⟩⟩]⟩ := by
  refine ⟨rfl, ?_⟩
  have h := c5_load_unset_default (fun _ => [.load .int 0])
    ⟨[], [⟨[], [], ⟨"m", 0⟩⟩]⟩ ⟨[], [], ⟨"m", 0⟩⟩ [] .int 0
    rfl (by decide) (by decide) (Or.inl rfl)
  exact h

/-- A Python slice bound that already lies in `[0, len]` is used as is. -/
theorem pyAdj_of_bounds (len : Nat) (i : Int) (h0 : 0 ≤ i) (h1 : i ≤ (len : Int)) :
    pyAdj len i = i.toNat := by
  simp only [pyAdj]
  split_ifs <;> omega

/-- Within bounds, Python slicing `s[b:e]` is drop-then-take. -/
theorem pySlice_of_bounds (s : String) (b e : Int) (h0 : 0 ≤ b) (h1 : b ≤ e)
    (h2 : e ≤ (s.length : Int)) :
    pySlice s b e = ((s.toList.drop b.toNat).take (e - b).toNat).asString := by
  have hl : s.length = s.toList.length := rfl
  have ht : e.toNat - b.toNat = (e - b).toNat := by omega
  simp only [pySlice]
  rw [pyAdj_of_bounds _ _ (le_trans h0 h1) (hl ▸ h2),
      pyAdj_of_bounds _ _ h0 (le_trans h1 (hl ▸ h2)),
      List.drop_take, ht]

/-- C3: two-argument `substring` on a text receiver yields "out of bounds"
exactly when `b < 0` or `e > length s` or `b > e`, and otherwise returns a
fresh text reference holding the characters from `b` (inclusive) to `e`
(exclusive). -/
theorem c3_substring_two_args (s : String) (b e : Int) :
    (handle_string_method "substring" (some ⟨.reference, .strP s⟩)
        [Value.int b, Value.int e] = .fault "out of bounds"
      ↔ (b < 0 ∨ (s.length : Int) < e ∨ e < b)) ∧
    (¬(b < 0 ∨ (s.length : Int) < e ∨ e < b) →
      handle_string_method "substring" (some ⟨.reference, .strP s⟩)
        [Value.int b, Value.int e] =
        .val ⟨.reference, .strP (((s.toList.drop b.toNat).take (e - b).toNat).asString)⟩) := by
  constructor
  · by_cases h : (b < 0 ∨ (s.length : Int) < e ∨ e < b) <;>
      simp [handle_string_method, Value.int, pyStr, h]
  · intro h
    push_neg at h
    obtain ⟨hb, he, hbe⟩ := h
    simp only [handle_string_method, Value.int, pyStr]
    rw [if_neg (by simp), if_pos (by simp)]
    rw [if_neg (by push_neg; exact ⟨hb, he, hbe⟩)]
    rw [pySlice_of_bounds s b e hb hbe he]

theorem c3_substring_two_args_witness :
    ¬((1 : Int) < 0 ∨ (("hello".length : Int) < 3) ∨ (3 : Int) < 1) ∧
    handle_string_method "substring" (some ⟨.reference, .strP "hello"⟩)
        [Value.int 1, Value.int 3] = .val ⟨.reference, .strP "el"⟩ := by
  refine ⟨by decide, ?_⟩
  have h := (c3_substring_two_args "hello" 1 3).2 (by decide)
  rw [h]
  decide

/-- A method whose only instruction branches to its own offset steps to the
very same state. -/
theorem step_goto_self (prog : Prog) (m : MethodID) (args : List Value)
    (hm : prog m = [.goto 0]) :
    step prog (initState m args) = .next (initState m args) := by
  simp [step, initState, fetchOpcode, pyIndex, hm]

/-- A state `step` maps to itself exhausts any fuel with the divergence
marker, having performed exactly `fuel` transitions. -/
theorem runCount_fixpoint (prog : Prog) (s : State) (h : step prog s = .next s) :
    ∀ n, runCount prog n s = (.printed "*", n) := by
  intro n
  induction n with
  | zero => rfl
  | succ k ih => simp [runCount, h, ih]

/-- C7: an entry method whose body is a single unconditional branch to its
own offset runs for exactly the step bound of 1000 transitions and the
driver reports the divergence marker `*`. -/
theorem c7_self_loop_hits_bound (prog : Prog) (m : MethodID) (args : List Value)
    (hm : prog m = [.goto 0]) :
    runCount prog 1000 (initState m args) = (.printed "*", 1000) :=
  runCount_fixpoint prog _ (step_goto_self prog m args hm) 1000

theorem c7_self_loop_hits_bound_witness :
    ((fun _ => [Opcode.goto 0]) : Prog) "loop" = [.goto 0] ∧
    runCount (fun _ => [.goto 0]) 1000 (initState "loop" []) = (.printed "*", 1000) :=
  ⟨rfl, c7_self_loop_hits_bound (fun _ => [.goto 0]) "loop" [] rfl⟩

/-- C8: an entry method whose first instruction is a plain `return` drives
the run to outcome "ok" (the single frame is popped, leaving the call stack
empty); in general `Return` pops the current frame — with no caller below
the outcome is "ok", otherwise the returned value (when one is expected) is
pushed on the caller's operand stack and the caller's PC advances by 1. -/
theorem c8_return_semantics :
    (∀ (prog : Prog) (m : MethodID) (args : List Value),
      fetchOpcode prog ⟨m, 0⟩ = some (.ret none) →
      step prog (initState m args) = .outcome "ok" ∧
      driverRun prog (initState m args) = .printed "ok") ∧
    (∀ (prog : Prog) (s : State) (frame : Frame) (rest : List Frame),
      s.frames = frame :: rest →
      (fetchOpcode prog frame.pc = some (.ret none) →
        (rest = [] → step prog s = .outcome "ok") ∧
        (∀ g gs, rest = g :: gs →
          step prog s = .next ⟨s.heap, { g with pc := g.pc.add 1 } :: gs⟩)) ∧
      (∀ ty, fetchOpcode prog frame.pc = some (.ret (some ty)) →
        ∀ v stk, frame.stack = v :: stk →
          (rest = [] → step prog s = .outcome "ok") ∧
          (∀ g gs, rest = g :: gs →
            step prog s = .next ⟨s.heap, { g with stack := v :: g.stack, pc := g.pc.add 1 } :: gs⟩))) := by
  constructor
  · intro prog m args hop
    have h1 : step prog (initState m args) = .outcome "ok" := by
      simp [step, initState, hop]
    refine ⟨h1, ?_⟩
    rw [driverRun, show (1000 : Nat) = 999 + 1 from rfl, runCount, h1]
  · intro prog s frame rest hf
    constructor
    · intro hop
      constructor
      · intro hr; subst hr; simp [step, hf, hop]
      · intro g gs hr; subst hr; simp [step, hf, hop]
    · intro ty hop v stk hstk
      constructor
      · intro hr; subst hr; simp [step, hf, hop, hstk]
      · intro g gs hr; subst hr; simp [step, hf, hop, hstk]

theorem c8_return_semantics_witness :
    step (fun _ => [.ret none]) (initState "m" []) = .outcome "ok" ∧
    driverRun (fun _ => [.ret none]) (initState "m" []) = .printed "ok" ∧
    step (fun _ => [.ret (some .int)])
        ⟨[], [⟨[], [Value.int 5], ⟨"m", 0⟩⟩, ⟨[], [], ⟨"c", 3⟩⟩]⟩ =
      .next ⟨[], [⟨[], [Value.int 5], ⟨"c", 4⟩⟩]⟩ := by
  have h1 := c8_return_semantics.1 (fun _ => [.ret none]) "m" [] (by decide)
  have h2 := (((c8_return_semantics.2 (fun _ => [.ret (some .int)])
      ⟨[], [⟨[], [Value.int 5], ⟨"m", 0⟩⟩, ⟨[], [], ⟨"c", 3⟩⟩]⟩
      ⟨[], [Value.int 5], ⟨"m", 0⟩⟩ [⟨[], [], ⟨"c", 3⟩⟩] rfl).2 .int (by decide)
      (Value.int 5) [] rfl).2 ⟨[], [], ⟨"c", 3⟩⟩ [] rfl)
  exact ⟨h1.1, h1.2, h2⟩

/-- Any successful transition keeps the heap intact and never lengthens the
call stack; from a one-frame state it keeps exactly one frame (the only
frame-popping case, `Return`, terminates instead of producing a state when
no caller remains). -/
theorem step_next_core (prog : Prog) (s s2 : State)
    (h : step prog s = .next s2) :
    s2.heap = s.heap ∧ s2.frames.length ≤ s.frames.length ∧
      (s.frames.length = 1 → s2.frames.length = 1) := by
  obtain ⟨heap, frames⟩ := s
  cases frames with
  | nil => simp [step] at h
  | cons frame rest =>
    cases hop : fetchOpcode prog frame.pc with
    | none => simp [step, hop] at h
    | some opr =>
      cases opr <;> simp only [step, hop] at h <;>
        (repeat' split at h) <;>
        first
        | exact StepResult.noConfusion h
        | (injection h with h2; subst h2;
           refine ⟨rfl, ?_, ?_⟩ <;> (try intro _) <;>
             simp only [List.length_cons] at * <;> omega)

/-- C9: no instruction pushes a new frame — every transition leaves the call
stack no longer than before, and every state reachable from the one-frame
initial state still has exactly one frame. -/
theorem c9_single_frame_invariant (prog : Prog) (m : MethodID) (args : List Value) :
    (∀ s s2 : State, StepRel prog s s2 → s2.frames.length ≤ s.frames.length) ∧
    (∀ s : State, Reachable prog (initState m args) s → s.frames.length = 1) := by
  refine ⟨fun s s2 h => (step_next_core prog s s2 h).2.1, ?_⟩
  intro s h
  have h2 : Relation.ReflTransGen (StepRel prog) (initState m args) s := h
  clear h
  induction h2 with
  | refl => rfl
  | tail hr hstep ih => exact (step_next_core prog _ _ hstep).2.2 ih

theorem c9_single_frame_invariant_witness :
    StepRel (fun _ => [.goto 0]) (initState "m" []) (initState "m" []) ∧
    (initState "m" ([] : List Value)).frames.length = 1 := by
  have h1 : step ((fun _ => [.goto 0]) : Prog) (initState "m" []) =
      .next (initState "m" []) := by decide
  exact ⟨h1, (c9_single_frame_invariant (fun _ => [.goto 0]) "m" []).2 _
    (Relation.ReflTransGen.single h1)⟩

/-- C10: the heap map is never written: every transition preserves it, and
since the driver seeds an empty heap, every reachable state's heap is
empty. -/
theorem c10_heap_never_written (prog : Prog) :
    (∀ s s2 : State, StepRel prog s s2 → s2.heap = s.heap) ∧
    (∀ (m : MethodID) (args : List Value) (s : State),
      Reachable prog (initState m args) s → s.heap = []) := by
  refine ⟨fun s s2 h => (step_next_core prog s s2 h).1, ?_⟩
  intro m args s h
  have h2 : Relation.ReflTransGen (StepRel prog) (initState m args) s := h
  clear h
  induction h2 with
  | refl => rfl
  | tail hr hstep ih => exact (step_next_core prog _ _ hstep).1.trans ih

theorem c10_heap_never_written_witness :
    StepRel (fun _ => [.goto 0]) (initState "w" []) (initState "w" []) ∧
    (initState "w" ([] : List Value)).heap = [] := by
  have h1 : step ((fun _ => [.goto 0]) : Prog) (initState "w" []) =
      .next (initState "w" []) := by decide
  exact ⟨h1, (c10_heap_never_written (fun _ => [.goto 0])).2 "w" [] _
    (Relation.ReflTransGen.single h1)⟩

end Interp
